import Mathlib

/-!
Verification development for the `web-timer-ts` repository (`src/App.tsx`).

The source is a single-page interval/lap timer written in React.  This file
gives a shallow embedding of its state-machine core:

* JS numbers that hold timestamps / millisecond counts are modelled as `Int`
  (the app only ever adds, subtracts, `Math.max`es and floors them);
* the `number | undefined | null` pattern is modelled as `Option Int`, with
  `NaN` folded into `none` wherever the source treats `NaN` like an absent
  value (`getPresetStatus`, the restore guards, `computePresetFromInput`);
* the `<input type=number>` `valueAsNumber` (a possibly fractional JS float)
  is modelled as `Option ℚ`;
* React state + refs (`isRunning`, `baseElapsed`, `startedAtRef`,
  `laps`, the anchor refs, `prevElapsedRef`, …) are collected into one
  `TimerState` record, and each event handler becomes a pure function
  `TimerState → Int → TimerState` taking the `Date.now()` reading as an
  explicit argument;
* the memoised `elapsed` display value (which writes `prevElapsedRef`) is
  modelled as a `read` event: rendering at wall-clock time `now` returns
  `elapsedAt s now` and stores it in `prevElapsed`.  An event handler's
  captured `elapsed` value is exactly `prevElapsedRef.current`, i.e.
  `s.prevElapsed`, because the memo writes the ref each time it recomputes;
* `localStorage` is modelled as a `Storage` record holding the parsed
  contents of the three keys the app uses (a present snapshot models a
  stored JSON-parsable payload, field-by-field `Option`s model the
  `typeof x === "number"` guards of the restore code);
* `toLocaleTimeString([], {hour: "2-digit", minute: "2-digit"})` is a
  platform/locale API; it is modelled as two-digit `HH:MM` derived from the
  timestamp in UTC.
-/

/-! ### JS primitive modelling -/

/-- `Math.floor(a / b)` on integers (floor division). -/
def jsFloorDiv (a b : Int) : Int := Int.fdiv a b

/-- JS `%` on integers (remainder truncated towards zero, sign of dividend). -/
def jsMod (a b : Int) : Int := Int.tmod a b

/-- `Math.round(a / b)` for a positive integer divisor `b`:
JS rounds half towards `+∞`, i.e. `Math.round(x) = Math.floor(x + 1/2)`,
and `⌊a/b + 1/2⌋ = ⌊(2a+b)/(2b)⌋`. -/
def jsRoundDiv (a b : Int) : Int := Int.fdiv (2 * a + b) (2 * b)

/-- JS truthiness of a `number | null | undefined` value:
`null`/`undefined` are falsy, a number is truthy iff it is non-zero
(`NaN`, also falsy, is folded into `none`). -/
def jsTruthy (x : Option Int) : Bool :=
  match x with
  | none => false
  | some v => decide (v ≠ 0)

/-- `a ?? b` on optional values. -/
def jsCoalesce (a b : Option Int) : Option Int :=
  match a with
  | some v => some v
  | none => b

/-- `a ?? b ?? c` where `c` is always present (e.g. `... ?? now`). -/
def jsCoalesceD (a b : Option Int) (c : Int) : Int :=
  match jsCoalesce a b with
  | some v => v
  | none => c

/-- `String.prototype.trim()` modelled on the character list
(strips leading and trailing whitespace). -/
def trimChars (cs : List Char) : List Char :=
  ((cs.dropWhile Char.isWhitespace).reverse.dropWhile Char.isWhitespace).reverse

/-- JS `raw.trim()` as used by `computePresetFromInput`. -/
def jsTrim (s : String) : String := String.mk (trimChars s.data)

/-- `String.prototype.padStart(2, "0")`. -/
def padStart2 (s : String) : String :=
  if s.length ≥ 2 then s else if s.length = 1 then "0" ++ s else "00"

/-- `Math.min(...)` over a list (`none` on the empty list, where the source
never calls it). -/
def listMin : List Int → Option Int
  | [] => none
  | x :: xs => some (xs.foldl min x)

/-- `Math.max(...)` over a list (`none` on the empty list, where the source
never calls it). -/
def listMax : List Int → Option Int
  | [] => none
  | x :: xs => some (xs.foldl max x)

/-! ### Formatting utilities (source: `msToHMS`, `fmtHMS`, `fmtRange`) -/

/-- Source `msToHMS`: split milliseconds into padded `h`/`m`/`s`/`cs`
strings.  `Math.floor` is floor division; JS `%` is `jsMod`. -/
def msToHMS (ms : Int) : String × String × String × String :=
  let totalSeconds := jsFloorDiv ms 1000
  let h := padStart2 (toString (jsFloorDiv totalSeconds 3600))
  let m := padStart2 (toString (jsFloorDiv (jsMod totalSeconds 3600) 60))
  let s := padStart2 (toString (jsMod totalSeconds 60))
  let cs := padStart2 (toString (jsFloorDiv (jsMod ms 1000) 10))
  (h, m, s, cs)

/-- Source `fmtHMS`: `HH:MM:SS`. -/
def fmtHMS (ms : Int) : String :=
  let p := msToHMS ms
  p.1 ++ ":" ++ p.2.1 ++ ":" ++ p.2.2.1

/-- Source `fmtRange`: local `HH:MM` of a timestamp via
`toLocaleTimeString`.  Modelled as two-digit UTC hour/minute. -/
def fmtRange (ts : Int) : String :=
  padStart2 (toString (Int.emod (jsFloorDiv ts 3600000) 24)) ++ ":" ++
    padStart2 (toString (Int.emod (jsFloorDiv ts 60000) 60))

/-! ### Preset status and target input parsing -/

/-- Source `getPresetStatus`: `"-"` when no target is recorded
(`null`/`undefined`/`NaN`, all folded into `none`), otherwise `"超過"`
("exceeded") iff `durationMs > targetMinutes * 60000` and `"未超過"`
("not exceeded") otherwise. -/
def getPresetStatus (durationMs : Int) (targetMinutes : Option Int) : String :=
  match targetMinutes with
  | none => "-"
  | some t => if durationMs > t * 60000 then "超過" else "未超過"

/-- Source `computePresetFromInput`: whitespace-only raw input parses to
`undefined`; an `undefined`/`NaN` `valueAsNumber` parses to `undefined`;
otherwise the result is `Math.max(0, Math.floor(n))`. -/
def computePresetFromInput (raw : String) (valueAsNumber : Option ℚ) : Option Int :=
  if jsTrim raw = "" then none
  else
    match valueAsNumber with
    | none => none
    | some n => some (max 0 (Rat.floor n))

/-! ### Data model -/

/-- A completed lap (source type `Lap`). -/
structure Lap where
  startTs : Int
  endTs : Int
  durationMs : Int
  targetMinutes : Option Int
deriving Repr, DecidableEq

/-- The whole in-memory state of the component: React state plus refs. -/
structure TimerState where
  isRunning : Bool
  baseElapsed : Int
  startedAt : Option Int
  laps : List Lap
  sessionStartTs : Option Int
  lapAnchorTs : Option Int
  activeStartTs : Option Int
  lastPauseTs : Option Int
  activeTargetMinutes : Option Int
  currentTargetMinutes : Option Int
  prevElapsed : Int
  prevRangeDur : Int
  reloadsLeft : Int
deriving Repr, DecidableEq

/-- Source `MAX_RELOADS`. -/
def MAX_RELOADS : Int := 2

/-- The state of a freshly mounted component (before the restore effect). -/
def initSt : TimerState where
  isRunning := false
  baseElapsed := 0
  startedAt := none
  laps := []
  sessionStartTs := none
  lapAnchorTs := none
  activeStartTs := none
  lastPauseTs := none
  activeTargetMinutes := none
  currentTargetMinutes := none
  prevElapsed := 0
  prevRangeDur := 0
  reloadsLeft := MAX_RELOADS

/-! ### Derived values (source memos) -/

/-- Source `lapsAccumulatedMs` memo:
`laps.reduce((acc, l) => acc + (l.durationMs || 0), 0)`
(`x || 0` is the identity on integers: it maps `0` to `0`). -/
def lapsAccumulatedMs (laps : List Lap) : Int :=
  laps.foldl (fun acc l => acc + l.durationMs) 0

/-- Source `rawElapsed` memo at wall-clock time `now`. -/
def rawElapsedAt (s : TimerState) (now : Int) : Int :=
  if s.isRunning then
    match s.startedAt with
    | some t => s.baseElapsed + (now - t)
    | none => s.baseElapsed
  else s.baseElapsed

/-- Source `elapsed` memo at wall-clock time `now`:
`Math.max(prevElapsedRef.current, rawElapsed)`. -/
def elapsedAt (s : TimerState) (now : Int) : Int :=
  max s.prevElapsed (rawElapsedAt s now)

/-- Source `rangeEnd` memo at wall-clock time `now`. -/
def rangeEndAt (s : TimerState) (now : Int) : Option Int :=
  match s.sessionStartTs with
  | none => none
  | some rangeStart =>
    let fromLaps := listMax (s.laps.map Lap.endTs)
    let live : Option Int := if s.isRunning then some now else s.lastPauseTs
    let combined :=
      match fromLaps, live with
      | some a, some b => some (max a b)
      | some a, none => some a
      | none, some b => some b
      | none, none => none
    match combined with
    | some e => some e
    | none => some rangeStart

/-- Source `rangeDuration` memo: `max 0 (rangeEnd - rangeStart)`,
`0` when there is no session. -/
def rangeDurationAt (s : TimerState) (now : Int) : Int :=
  match s.sessionStartTs, rangeEndAt s now with
  | some a, some b => max 0 (b - a)
  | _, _ => 0

/-- The derived in-progress row (source `activeRow` memo), rendered at
wall-clock time `now`: present iff `activeStartTsRef.current != null`;
its duration is `Math.max(0, elapsed - lapsAccumulatedMs)`, never a
wall-clock delta of its own anchors. -/
def activeRowAt (s : TimerState) (now : Int) : Option Lap :=
  match s.activeStartTs with
  | none => none
  | some start =>
    some
      { startTs := start
        endTs := if s.isRunning then now else s.lastPauseTs.getD now
        durationMs := max 0 (elapsedAt s now - lapsAccumulatedMs s.laps)
        targetMinutes := s.activeTargetMinutes }

/-! ### Event handlers (source `handleStart` / `handlePause` / `handleReset`
/ `handleLap` / `handlePresetChange`) -/

/-- Source `handleStart`: no-op while running; on the very first start it
sets all anchors to `now` and locks the pending target for lap 1; on a
resume it only re-establishes `activeStartTs` when that ref is unset. -/
def handleStart (s : TimerState) (now : Int) : TimerState :=
  if s.isRunning then s
  else
    let s1 := { s with startedAt := some now, isRunning := true }
    match s1.sessionStartTs with
    | none =>
      { s1 with
        sessionStartTs := some now
        lapAnchorTs := some now
        activeStartTs := some now
        activeTargetMinutes := s1.currentTargetMinutes }
    | some _ =>
      match s1.activeStartTs with
      | none =>
        { s1 with activeStartTs := some (jsCoalesceD s1.lapAnchorTs s1.sessionStartTs now) }
      | some _ => s1

/-- Source `handlePause`: no-op while not running; otherwise
`baseElapsed := Math.max(displayedElapsed, baseElapsed + (now - startedAt))`
where `displayedElapsed` is the captured `elapsed` memo value, i.e.
`prevElapsedRef.current`; then clears `startedAt` and freezes
`lastPauseTs = now`. -/
def handlePause (s : TimerState) (now : Int) : TimerState :=
  if !s.isRunning then s
  else
    let computed := s.baseElapsed + (now - s.startedAt.getD now)
    let next := max s.prevElapsed computed
    { s with
      isRunning := false
      baseElapsed := next
      startedAt := none
      lastPauseTs := some now }

/-- Source `handleReset`: refused while running; otherwise clears every
piece of state (the result coincides with `initSt`, including the reload
budget being restored to `MAX_RELOADS`). -/
def handleReset (s : TimerState) : TimerState :=
  if s.isRunning then s
  else
    { isRunning := false
      baseElapsed := 0
      startedAt := none
      laps := []
      sessionStartTs := none
      lapAnchorTs := none
      activeStartTs := none
      lastPauseTs := none
      activeTargetMinutes := none
      currentTargetMinutes := none
      prevElapsed := 0
      prevRangeDur := 0
      reloadsLeft := MAX_RELOADS }

/-- Source `handleLap`: refused while not running or before any session
start; otherwise cuts a lap whose duration is
`Math.max(0, elapsed - lapsAccumulatedMs)` (with `elapsed` the captured
display value, i.e. `prevElapsed`), advances the anchors to `now` and locks
the pending target for the next segment. -/
def handleLap (s : TimerState) (now : Int) : TimerState :=
  if !s.isRunning then s
  else if s.sessionStartTs = none then s
  else
    let currentLapMs := max 0 (s.prevElapsed - lapsAccumulatedMs s.laps)
    let startTs := jsCoalesceD s.activeStartTs (jsCoalesce s.lapAnchorTs s.sessionStartTs) now
    let newLap : Lap :=
      { startTs := startTs
        endTs := now
        durationMs := currentLapMs
        targetMinutes := s.activeTargetMinutes }
    { s with
      laps := s.laps ++ [newLap]
      lapAnchorTs := some now
      activeStartTs := some now
      activeTargetMinutes := s.currentTargetMinutes }

/-- Source `handlePresetChange`: parses the raw input and stores the result
in `currentTargetMinutes` (the pending target); nothing else changes. -/
def handlePresetChange (s : TimerState) (raw : String) (valueAsNumber : Option ℚ) :
    TimerState :=
  { s with currentTargetMinutes := computePresetFromInput raw valueAsNumber }

/-- A render at wall-clock time `now`: the `elapsed` and
`displayRangeDuration` memos recompute and write their monotonicity refs.
No other state changes. -/
def stepRead (s : TimerState) (now : Int) : TimerState :=
  { s with
    prevElapsed := elapsedAt s now
    prevRangeDur := max s.prevRangeDur (rangeDurationAt s now) }

/-- Discrete events driving the state machine. -/
inductive Ev where
  | start (now : Int)
  | pause (now : Int)
  | lap (now : Int)
  | reset
  | read (now : Int)
deriving Repr, DecidableEq

/-- One transition of the state machine. -/
def step (s : TimerState) : Ev → TimerState
  | .start now => handleStart s now
  | .pause now => handlePause s now
  | .lap now => handleLap s now
  | .reset => handleReset s
  | .read now => stepRead s now

/-- A whole trace of events. -/
def runTrace (s : TimerState) (tr : List Ev) : TimerState :=
  tr.foldl step s

/-- States reachable from the freshly mounted component by user events and
renders. -/
inductive Reachable : TimerState → Prop where
  | init : Reachable initSt
  | step {s : TimerState} (e : Ev) : Reachable s → Reachable (step s e)

/-! ### Persistence: snapshot schemas, storage, restore and persist effects -/

/-- The current (`web_timer_state_v6`) snapshot shape.  Each field is
`Option`al: the restore code checks `typeof x === "number"` (resp.
`Array.isArray`, `!= null && !NaN`) field by field, so `none` models an
absent / `null` / wrongly-typed / `NaN` field. -/
structure SnapshotV6 where
  laps : Option (List Lap)
  baseElapsed : Option Int
  sessionStartTs : Option Int
  lapAnchorTs : Option Int
  activeStartTs : Option Int
  activeTargetMinutes : Option Int
  lastPauseTs : Option Int
  currentTargetMinutes : Option Int
deriving Repr, DecidableEq

/-- The legacy `web_timer_state_v5` snapshot shape. -/
structure SnapshotV5 where
  laps : Option (List Lap)
  baseElapsed : Option Int
  sessionStartTs : Option Int
  lapAnchorTs : Option Int
  lastPauseTs : Option Int
  currentTargetMinutes : Option Int
deriving Repr, DecidableEq

/-- One entry of the legacy `web_timer_state_v4` `segments` list; `start`
and `end` are kept only when they are numbers (the source filters on
`typeof === "number"`).  The source field `end` is called `end_` here
because `end` is a Lean keyword. -/
structure SegV4 where
  start : Option Int
  end_ : Option Int
  targetMinutes : Option Int
deriving Repr, DecidableEq

/-- The legacy `web_timer_state_v4` snapshot shape. -/
structure SnapshotV4 where
  segments : Option (List SegV4)
  baseElapsed : Option Int
deriving Repr, DecidableEq

/-- The three `localStorage` keys the app uses.  `reloadsLeft` is `none`
when the stored string is absent or does not `parseInt` to a finite number;
a `some` snapshot models a stored JSON-parsable payload under that key. -/
structure Storage where
  reloadsLeft : Option Int
  stateV6 : Option SnapshotV6
  stateV5 : Option SnapshotV5
  stateV4 : Option SnapshotV4
deriving Repr, DecidableEq

/-- Field-by-field application of a v6 snapshot (restore effect, v6
branch): every field is restored only if its guard passes, the rest keep
their previous (freshly-mounted) values. -/
def applyV6 (s : TimerState) (p : SnapshotV6) : TimerState :=
  { s with
    laps := p.laps.getD s.laps
    baseElapsed := p.baseElapsed.getD s.baseElapsed
    sessionStartTs := jsCoalesce p.sessionStartTs s.sessionStartTs
    lapAnchorTs := jsCoalesce p.lapAnchorTs s.lapAnchorTs
    activeStartTs := jsCoalesce p.activeStartTs s.activeStartTs
    lastPauseTs := jsCoalesce p.lastPauseTs s.lastPauseTs
    activeTargetMinutes := jsCoalesce p.activeTargetMinutes s.activeTargetMinutes
    currentTargetMinutes := jsCoalesce p.currentTargetMinutes s.currentTargetMinutes }

/-- Application of a v5 snapshot (restore effect, v5 migration branch).
Unlike v6, the anchor refs are assigned unconditionally
(`typeof ... === "number" ? v : null`) and `activeStartTs` is derived as
`lapAnchorTs ?? sessionStartTs`. -/
def applyV5 (s : TimerState) (p : SnapshotV5) : TimerState :=
  let sessionStartTs := p.sessionStartTs
  let lapAnchorTs := jsCoalesce p.lapAnchorTs sessionStartTs
  { s with
    laps := p.laps.getD s.laps
    baseElapsed := p.baseElapsed.getD s.baseElapsed
    sessionStartTs := sessionStartTs
    lapAnchorTs := lapAnchorTs
    activeStartTs := jsCoalesce lapAnchorTs sessionStartTs
    lastPauseTs := p.lastPauseTs
    currentTargetMinutes := jsCoalesce p.currentTargetMinutes s.currentTargetMinutes }

/-- v4 migration of one segment: kept only when both `start` and `end` are
numbers; `durationMs` is derived from the pair, floored at zero, and
`targetMinutes` is carried over.  (The source filters and then maps; a
`filterMap` of this partial migration is the same list.) -/
def migrateSegV4 (seg : SegV4) : Option Lap :=
  match seg.start, seg.end_ with
  | some a, some b =>
    some { startTs := a, endTs := b, durationMs := max 0 (b - a), targetMinutes := seg.targetMinutes }
  | _, _ => none

/-- v4 migration of the whole `segments` list. -/
def migrateV4 (segs : List SegV4) : List Lap :=
  segs.filterMap migrateSegV4

/-- Application of a v4 snapshot (restore effect, v4 migration branch):
only fires when the payload has a `segments` array; the session start is
the minimum migrated `startTs`, and the lap anchor, active-segment start
and last-pause timestamp all derive from the maximum migrated `endTs`. -/
def applyV4 (s : TimerState) (p : SnapshotV4) : TimerState :=
  match p.segments with
  | none => s
  | some segs =>
    let migrated := migrateV4 segs
    let sessionStartTs := listMin (migrated.map Lap.startTs)
    let lastEnd := listMax (migrated.map Lap.endTs)
    let lapAnchorTs := jsCoalesce lastEnd sessionStartTs
    { s with
      laps := migrated
      baseElapsed := p.baseElapsed.getD 0
      sessionStartTs := sessionStartTs
      lapAnchorTs := lapAnchorTs
      activeStartTs := jsCoalesce lapAnchorTs sessionStartTs
      lastPauseTs := lastEnd }

/-- The restore effect that runs once on page load: read the reload
budget (defaulting to `MAX_RELOADS` when absent/corrupt); when it is
positive, restore from v6, else migrate from v5, else from v4, and consume
one reload (decrement, floored at zero, written back); when it is not
positive, delete the stored v6 snapshot and restore nothing. -/
def restoreLoad (store : Storage) : TimerState × Storage :=
  let left := store.reloadsLeft.getD MAX_RELOADS
  let s0 := { initSt with reloadsLeft := left }
  if left > 0 then
    let s1 :=
      match store.stateV6 with
      | some p => applyV6 s0 p
      | none =>
        match store.stateV5 with
        | some p => applyV5 s0 p
        | none =>
          match store.stateV4 with
          | some p => applyV4 s0 p
          | none => s0
    let left1 := max 0 (left - 1)
    ({ s1 with reloadsLeft := left1 }, { store with reloadsLeft := some left1 })
  else
    (s0, { store with stateV6 := none })

/-- The v6 payload the persist effect serialises from the current state.
JSON round-trips our integers and optional fields exactly: a `null` ref
serialises to `null`, which fails the restore guard, i.e. stays `none`. -/
def mkSnapshotV6 (s : TimerState) : SnapshotV6 where
  laps := some s.laps
  baseElapsed := some s.baseElapsed
  sessionStartTs := s.sessionStartTs
  lapAnchorTs := s.lapAnchorTs
  activeStartTs := s.activeStartTs
  activeTargetMinutes := s.activeTargetMinutes
  lastPauseTs := s.lastPauseTs
  currentTargetMinutes := s.currentTargetMinutes

/-- The persist effect, which runs after every state change: overwrite the
stored v6 snapshot while the budget is positive, otherwise delete it. -/
def persistStep (s : TimerState) (store : Storage) : Storage :=
  if s.reloadsLeft > 0 then { store with stateV6 := some (mkSnapshotV6 s) }
  else { store with stateV6 := none }

/-- `handleReset` together with its storage effects: refused while running;
otherwise it clears the stored snapshot and resets the reload budget. -/
def handleResetS (s : TimerState) (store : Storage) : TimerState × Storage :=
  if s.isRunning then (s, store)
  else (handleReset s, { store with stateV6 := none, reloadsLeft := some MAX_RELOADS })

/-! ### Export text (source `buildTextSummary`) -/

/-- `lines.join("\n")`. -/
def joinLines : List String → String
  | [] => ""
  | [x] => x
  | x :: y :: rest => x ++ "\n" ++ joinLines (y :: rest)

/-- Source `buildTextSummary`: a fixed placeholder when there are no
completed laps; otherwise one numbered line per lap (minutes are
`Math.round(durationMs / 60000)`), and — when `rangeStart` and `rangeEnd`
are both truthy — a blank line followed by the total-range line.  The
in-progress row is never part of `lapRows` (the app passes `completedRows`). -/
def buildTextSummary (lapRows : List Lap) (rangeStart rangeEnd : Option Int)
    (rangeDuration : Option Int) : String :=
  if lapRows.isEmpty then "尚無區段紀錄"
  else
    let lines := lapRows.enum.map fun p =>
      let mins := jsRoundDiv p.2.durationMs 60000
      toString (p.1 + 1) ++ ". " ++ fmtRange p.2.startTs ++ "~" ++ fmtRange p.2.endTs ++
        "，共 " ++ toString mins ++ " 分鐘"
    let lines :=
      if jsTruthy rangeStart && jsTruthy rangeEnd then
        lines ++ ["",
          "總時長：" ++ fmtRange (rangeStart.getD 0) ++ "~" ++ fmtRange (rangeEnd.getD 0) ++
            "（共 " ++ fmtHMS (rangeDuration.getD 0) ++ "）"]
      else lines
    joinLines lines

/-! ### Spec-side formatting definitions (for the export-contract claim).
These follow the spec's words — one line
`"<n>. <startHH:MM>~<endHH:MM>，共 <wholeMinutes> 分鐘"` per completed lap
and a total line `"總時長：<startHH:MM>~<endHH:MM>（共 <HH:MM:SS>）"` —
to be compared with `buildTextSummary`. -/

/-- Spec wording of the per-lap line, `n` being the 1-based position. -/
def specLapLine (n : Nat) (lap : Lap) : String :=
  toString n ++ ". " ++ fmtRange lap.startTs ++ "~" ++ fmtRange lap.endTs ++
    "，共 " ++ toString (jsRoundDiv lap.durationMs 60000) ++ " 分鐘"

/-- Spec wording of the total-range line. -/
def specTotalLine (rangeStart rangeEnd rangeDuration : Int) : String :=
  "總時長：" ++ fmtRange rangeStart ++ "~" ++ fmtRange rangeEnd ++
    "（共 " ++ fmtHMS rangeDuration ++ "）"

/-- The spec's per-lap lines, in chronological order. -/
def specLapLines (laps : List Lap) : List String :=
  laps.enum.map fun p => specLapLine (p.1 + 1) p.2

/-- `true` iff the string contains no literal ASCII bracket character. -/
def noBr (s : String) : Bool :=
  s.data.all fun c => !(c == '[') && !(c == ']')

/-! ### Helper lemmas -/

theorem lapsAccumulatedMs_append (laps : List Lap) (l : Lap) :
    lapsAccumulatedMs (laps ++ [l]) = lapsAccumulatedMs laps + l.durationMs := by
  simp [lapsAccumulatedMs, List.foldl_append]

theorem lapsAccumulatedMs_foldl (laps : List Lap) (acc : Int) :
    laps.foldl (fun a l => a + l.durationMs) acc = acc + (laps.map Lap.durationMs).sum := by
  induction laps generalizing acc with
  | nil => simp
  | cons l rest ih => simp [List.foldl_cons, ih]; ring

/-- The source's `reduce` accumulator equals the sum of the lap durations. -/
theorem lapsAccumulatedMs_eq_sum (laps : List Lap) :
    lapsAccumulatedMs laps = (laps.map Lap.durationMs).sum := by
  simpa using lapsAccumulatedMs_foldl laps 0

/-- `Rat.floor` (used in the executable embedding) is the mathematical
floor. -/
theorem ratFloor_eq_floor (q : ℚ) : Rat.floor q = ⌊q⌋ := by
  rw [Rat.floor_def, Rat.floor_def']

/-- The state invariant behind the lap-accounting claim: the accumulated
completed-lap total never exceeds the last displayed elapsed value, and
before any session starts (no active segment) everything is zero. -/
def TimerInv (s : TimerState) : Prop :=
  lapsAccumulatedMs s.laps ≤ s.prevElapsed ∧
  (s.activeStartTs = none →
    s.laps = [] ∧ s.prevElapsed = 0 ∧ s.baseElapsed = 0 ∧ s.isRunning = false)

theorem timerInv_initSt : TimerInv initSt := by
  constructor
  · simp [initSt, lapsAccumulatedMs]
  · intro _; simp [initSt]

theorem timerInv_handleStart (s : TimerState) (now : Int) (h : TimerInv s) :
    TimerInv (handleStart s now) := by
  obtain ⟨h1, h2⟩ := h
  unfold handleStart
  split
  · exact ⟨h1, h2⟩
  · dsimp only
    split
    · exact ⟨h1, by intro hc; simp at hc⟩
    · split
      · exact ⟨h1, by intro hc; simp at hc⟩
      · rename_i hsome
        refine ⟨h1, ?_⟩
        intro hc
        rw [hc] at hsome
        cases hsome

theorem timerInv_handlePause (s : TimerState) (now : Int) (h : TimerInv s) :
    TimerInv (handlePause s now) := by
  obtain ⟨h1, h2⟩ := h
  unfold handlePause
  split
  · exact ⟨h1, h2⟩
  · rename_i hrun
    refine ⟨h1, ?_⟩
    intro hc
    rcases h2 hc with ⟨_, _, _, hr⟩
    simp [hr] at hrun

theorem timerInv_handleLap (s : TimerState) (now : Int) (h : TimerInv s) :
    TimerInv (handleLap s now) := by
  obtain ⟨h1, h2⟩ := h
  unfold handleLap
  split
  · exact ⟨h1, h2⟩
  · split
    · exact ⟨h1, h2⟩
    · constructor
      · simp only [lapsAccumulatedMs_append]
        omega
      · intro hc; simp at hc

theorem timerInv_handleReset (s : TimerState) (h : TimerInv s) : TimerInv (handleReset s) := by
  unfold handleReset
  split
  · exact h
  · constructor
    · simp [lapsAccumulatedMs]
    · intro _; simp

theorem timerInv_stepRead (s : TimerState) (now : Int) (h : TimerInv s) :
    TimerInv (stepRead s now) := by
  obtain ⟨h1, h2⟩ := h
  constructor
  · have : s.prevElapsed ≤ elapsedAt s now := le_max_left _ _
    simpa [stepRead] using le_trans h1 this
  · intro hc
    simp only [stepRead] at hc ⊢
    rcases h2 hc with ⟨hl, hp, hb, hr⟩
    refine ⟨hl, ?_, hb, hr⟩
    simp [elapsedAt, rawElapsedAt, hp, hb, hr]

/-- The invariant holds in every reachable state. -/
theorem reachable_inv (s : TimerState) (h : Reachable s) : TimerInv s := by
  induction h with
  | init => exact timerInv_initSt
  | step e _ ih =>
    cases e with
    | start now => exact timerInv_handleStart _ now ih
    | pause now => exact timerInv_handlePause _ now ih
    | lap now => exact timerInv_handleLap _ now ih
    | reset => exact timerInv_handleReset _ ih
    | read now => exact timerInv_stepRead _ now ih

/-- `prevElapsedRef` never decreases under any event except a reset. -/
theorem prevElapsed_mono_step (s : TimerState) (e : Ev) (h : e ≠ Ev.reset) :
    s.prevElapsed ≤ (step s e).prevElapsed := by
  cases e with
  | start now =>
    simp only [step, handleStart]
    split
    · exact le_refl _
    · split
      · exact le_refl _
      · split <;> exact le_refl _
  | pause now =>
    simp only [step, handlePause]
    split <;> exact le_refl _
  | lap now =>
    simp only [step, handleLap]
    split
    · exact le_refl _
    · split <;> exact le_refl _
  | reset => exact absurd rfl h
  | read now => exact le_max_left _ _

/-- `prevElapsedRef` never decreases along any reset-free trace. -/
theorem prevElapsed_mono_trace (tr : List Ev) (s : TimerState)
    (h : ∀ e ∈ tr, e ≠ Ev.reset) :
    s.prevElapsed ≤ (runTrace s tr).prevElapsed := by
  induction tr generalizing s with
  | nil => exact le_refl _
  | cons e rest ih =>
    have h1 : s.prevElapsed ≤ (step s e).prevElapsed :=
      prevElapsed_mono_step s e (h e (List.mem_cons_self e rest))
    have h2 := ih (step s e) (fun e' he' => h e' (List.mem_cons_of_mem e he'))
    exact le_trans h1 h2

/-! ### Claim theorems -/

/-- Claim C1: at every state reachable by start/pause/resume/cutLap
operations (and renders), the sum of `durationMs` over all completed laps
plus the derived active segment's `durationMs` equals the displayed
elapsed value — the active duration being, by construction
(`activeRowAt`), `totalElapsed - sum(completed durations)` rather than a
wall-clock delta of its own anchors. -/
theorem lap_accounting_invariant (s : TimerState) (h : Reachable s) (now : Int) :
    (s.laps.map Lap.durationMs).sum +
      (match activeRowAt s now with
       | some row => row.durationMs
       | none => 0) = elapsedAt s now := by
  obtain ⟨h1, h2⟩ := reachable_inv s h
  have hsum : lapsAccumulatedMs s.laps = (s.laps.map Lap.durationMs).sum :=
    lapsAccumulatedMs_eq_sum s.laps
  cases hA : s.activeStartTs with
  | none =>
    rcases h2 hA with ⟨hl, hp, hb, hr⟩
    simp [activeRowAt, hA, hl, elapsedAt, rawElapsedAt, hp, hb, hr]
  | some v =>
    have h3 : s.prevElapsed ≤ elapsedAt s now := le_max_left _ _
    have hrow : activeRowAt s now = some
        { startTs := v
          endTs := if s.isRunning then now else s.lastPauseTs.getD now
          durationMs := max 0 (elapsedAt s now - lapsAccumulatedMs s.laps)
          targetMinutes := s.activeTargetMinutes } := by
      simp [activeRowAt, hA]
    rw [hrow]
    show (s.laps.map Lap.durationMs).sum +
        max 0 (elapsedAt s now - lapsAccumulatedMs s.laps) = elapsedAt s now
    rw [max_eq_right (by omega)]
    omega

/-- Claim C1 witness: a concrete reachable state (start at 0, render at
60000, cut a lap, render at 90000) evaluated at wall-clock 100000. -/
theorem lap_accounting_invariant_witness :
    ((runTrace initSt [Ev.start 0, Ev.read 60000, Ev.lap 60000, Ev.read 90000]).laps.map
        Lap.durationMs).sum +
      (match activeRowAt (runTrace initSt [Ev.start 0, Ev.read 60000, Ev.lap 60000, Ev.read 90000])
          100000 with
       | some row => row.durationMs
       | none => 0) =
      elapsedAt (runTrace initSt [Ev.start 0, Ev.read 60000, Ev.lap 60000, Ev.read 90000]) 100000 :=
  lap_accounting_invariant _
    (Reachable.step (Ev.read 90000) (Reachable.step (Ev.lap 60000)
      (Reachable.step (Ev.read 60000) (Reachable.step (Ev.start 0) Reachable.init)))) 100000

/-- Claim C3: for any sequence of start/pause/resume (and lap/render)
events that does not contain a reset, each later read of the displayed
elapsed value is ≥ an earlier read, even when wall-clock timestamps jitter
backwards between reads. -/
theorem elapsed_reads_monotone (s : TimerState) (t1 t2 : Int) (tr : List Ev)
    (h : ∀ e ∈ tr, e ≠ Ev.reset) :
    elapsedAt s t1 ≤ elapsedAt (runTrace (stepRead s t1) tr) t2 := by
  have h0 : (stepRead s t1).prevElapsed = elapsedAt s t1 := rfl
  have h1 := prevElapsed_mono_trace tr (stepRead s t1) h
  have h2 : (runTrace (stepRead s t1) tr).prevElapsed ≤
      elapsedAt (runTrace (stepRead s t1) tr) t2 := le_max_left _ _
  omega

/-- Claim C3 witness: read at 2000 after starting at 1000, then the clock
jitters backwards (pause at 1500, resume at 1600, render at 1700) and the
read at 1800 is still ≥ the first read. -/
theorem elapsed_reads_monotone_witness :
    elapsedAt (step initSt (Ev.start 1000)) 2000 ≤
      elapsedAt (runTrace (stepRead (step initSt (Ev.start 1000)) 2000)
        [Ev.pause 1500, Ev.start 1600, Ev.read 1700]) 1800 :=
  elapsed_reads_monotone (step initSt (Ev.start 1000)) 2000 1800
    [Ev.pause 1500, Ev.start 1600, Ev.read 1700] (by decide)

/-- Claim C4: with a recorded target, the status is `"超過"` (exceeded) iff
`durationMs > targetMinutes * 60000`, `"未超過"` (not exceeded) iff
`durationMs ≤ targetMinutes * 60000` (equality on the ok side); with no
recorded target the status is the unset marker `"-"`. -/
theorem preset_status_classification (d t : Int) :
    (getPresetStatus d (some t) = "超過" ↔ d > t * 60000) ∧
    (getPresetStatus d (some t) = "未超過" ↔ d ≤ t * 60000) ∧
    getPresetStatus d none = "-" := by
  simp only [getPresetStatus]
  split
  · rename_i hgt
    exact ⟨⟨fun _ => hgt, fun _ => rfl⟩,
      ⟨fun hstr => absurd hstr (by decide), fun hle => absurd hle (by omega)⟩, trivial⟩
  · rename_i hle
    exact ⟨⟨fun hstr => absurd hstr (by decide), fun hgt => absurd hgt hle⟩,
      ⟨fun _ => by omega, fun _ => rfl⟩, trivial⟩

/-- Claim C4 witness: one millisecond over a 60-minute target is exceeded,
exactly 60 minutes is not. -/
theorem preset_status_classification_witness :
    getPresetStatus 3600001 (some 60) = "超過" ∧
      getPresetStatus 3600000 (some 60) = "未超過" :=
  ⟨(preset_status_classification 3600001 60).1.mpr (by decide),
   (preset_status_classification 3600000 60).2.1.mpr (by decide)⟩

/-- Claim C5: in a state with an open segment, changing the pending target
leaves the open segment's locked target and every completed lap unchanged;
the pending value is locked in only at the next lap cut (or at the first
start for lap 1). -/
theorem target_lock (s : TimerState) (raw : String) (n : Option ℚ) (now : Int)
    (_hOpen : s.activeStartTs ≠ none) :
    (handlePresetChange s raw n).activeTargetMinutes = s.activeTargetMinutes ∧
    (handlePresetChange s raw n).laps = s.laps ∧
    (s.isRunning = true → s.sessionStartTs ≠ none →
      (handleLap (handlePresetChange s raw n) now).activeTargetMinutes =
        computePresetFromInput raw n) ∧
    (s.isRunning = false → s.sessionStartTs = none →
      (handleStart (handlePresetChange s raw n) now).activeTargetMinutes =
        computePresetFromInput raw n) := by
  refine ⟨rfl, rfl, ?_, ?_⟩
  · intro hrun hsess
    simp [handleLap, handlePresetChange, hrun, hsess]
  · intro hrun hsess
    simp [handleStart, handlePresetChange, hrun, hsess]

/-- Claim C5 witness: in a running session, entering "30" locks 30 for the
next cut, not for the open segment. -/
theorem target_lock_witness :
    (handlePresetChange (runTrace initSt [Ev.start 0, Ev.read 5000]) "30"
        (some 30)).activeTargetMinutes =
      (runTrace initSt [Ev.start 0, Ev.read 5000]).activeTargetMinutes ∧
    (handleLap (handlePresetChange (runTrace initSt [Ev.start 0, Ev.read 5000]) "30"
        (some 30)) 6000).activeTargetMinutes = computePresetFromInput "30" (some 30) :=
  ⟨(target_lock (runTrace initSt [Ev.start 0, Ev.read 5000]) "30" (some 30) 6000
      (by decide)).1,
   (target_lock (runTrace initSt [Ev.start 0, Ev.read 5000]) "30" (some 30) 6000
      (by decide)).2.2.1 (by decide) (by decide)⟩

/-- Claim C7: the illegal transitions — cutting a lap while not running or
before any session start, pausing while not running, starting while
already running, resetting while running — are total functions that return
the state (and storage) unchanged. -/
theorem illegal_transitions_noop (s : TimerState) (store : Storage) (now : Int) :
    (s.isRunning = false → handleLap s now = s) ∧
    (s.sessionStartTs = none → handleLap s now = s) ∧
    (s.isRunning = false → handlePause s now = s) ∧
    (s.isRunning = true → handleStart s now = s) ∧
    (s.isRunning = true → handleResetS s store = (s, store)) := by
  refine ⟨?_, ?_, ?_, ?_, ?_⟩
  · intro h; simp [handleLap, h]
  · intro h; simp [handleLap, h]
  · intro h; simp [handlePause, h]
  · intro h; simp [handleStart, h]
  · intro h; simp [handleResetS, h]

/-- Claim C2 (amended): on load with a positive stored budget the counter
is decremented by exactly one and persisted — whether or not any snapshot
existed — and the stored snapshot keys are left as they were; with the
budget at zero the stored current-format snapshot is deleted, no restore
is attempted and the counter is not decremented. -/
theorem reload_budget_restore (store : Storage) (k : Int) :
    (store.reloadsLeft = some k → 0 < k →
      (restoreLoad store).2.reloadsLeft = some (k - 1) ∧
      (restoreLoad store).1.reloadsLeft = k - 1 ∧
      (restoreLoad store).2.stateV6 = store.stateV6 ∧
      (store.stateV6 = none → store.stateV5 = none → store.stateV4 = none →
        (restoreLoad store).1 = { initSt with reloadsLeft := k - 1 })) ∧
    (store.reloadsLeft = some 0 →
      (restoreLoad store).2.stateV6 = none ∧
      (restoreLoad store).2.reloadsLeft = some 0 ∧
      (restoreLoad store).1 = { initSt with reloadsLeft := 0 }) := by
  constructor
  · intro hk hpos
    have hmax : max 0 (k - 1) = k - 1 := by omega
    simp only [restoreLoad, hk, Option.getD_some, if_pos hpos, hmax]
    refine ⟨trivial, trivial, trivial, ?_⟩
    intro h6 h5 h4
    simp [h6, h5, h4]
  · intro hk
    have hneg : ¬((0 : Int) > 0) := by omega
    simp only [restoreLoad, hk, Option.getD_some, if_neg hneg]
    exact ⟨trivial, trivial, trivial⟩

/-- Claim C2 counterexample: with the stored budget at zero, a stored
legacy (v5) snapshot is NOT deleted by the load — refuting "any stored
snapshot is deleted" as stated. -/
theorem reload_budget_restore_cex :
    (let st0 : Storage :=
      { reloadsLeft := some 0
        stateV6 := some (mkSnapshotV6 initSt)
        stateV5 := some ⟨some [], some 0, none, none, none, none⟩
        stateV4 := none }
    (restoreLoad st0).2.stateV5 = st0.stateV5 ∧ st0.stateV5 ≠ none) := by
  decide

/-- Claim C2 witness: an eligible load with budget 2 and nothing stored
still decrements to 1 and restores the pristine state. -/
theorem reload_budget_restore_witness :
    (restoreLoad ⟨some 2, none, none, none⟩).2.reloadsLeft = some 1 ∧
    (restoreLoad ⟨some 2, none, none, none⟩).1 = { initSt with reloadsLeft := 1 } :=
  ⟨((reload_budget_restore ⟨some 2, none, none, none⟩ 2).1 rfl (by decide)).1,
   ((reload_budget_restore ⟨some 2, none, none, none⟩ 2).1 rfl (by decide)).2.2.2
     rfl rfl rfl⟩

/-- Claim C6: persisting a state with a positive reload budget and
restoring it on a later eligible load reproduces the lap ledger exactly
(every `startTs`, `endTs`, `durationMs`, `targetMinutes`). -/
theorem persistence_roundtrip (s : TimerState) (store : Storage) (k : Int)
    (hs : 0 < s.reloadsLeft) (hk : 0 < k) :
    ((restoreLoad { persistStep s store with reloadsLeft := some k }).1).laps = s.laps := by
  simp [persistStep, restoreLoad, applyV6, mkSnapshotV6, if_pos hs, if_pos hk]

/-- Claim C6 witness: a two-lap ledger round-trips unchanged. -/
theorem persistence_roundtrip_witness :
    ((restoreLoad { persistStep
        { initSt with laps := [⟨0, 1000, 1000, some 2⟩, ⟨1000, 3000, 1500, none⟩] }
        ⟨none, none, none, none⟩ with reloadsLeft := some 1 }).1).laps =
      [⟨0, 1000, 1000, some 2⟩, ⟨1000, 3000, 1500, none⟩] :=
  persistence_roundtrip
    { initSt with laps := [⟨0, 1000, 1000, some 2⟩, ⟨1000, 3000, 1500, none⟩] }
    ⟨none, none, none, none⟩ 1 (by decide) (by decide)

/-- Claim C8: when no v6 or v5 snapshot exists and a v4 payload with a
`segments` list is found on an eligible load, each segment with numeric
`start` and `end` migrates to a lap with `startTs = start`, `endTs = end`,
`durationMs = max 0 (end - start)` and `targetMinutes` carried over; the
session start is the minimum migrated `startTs`, and the lap anchor,
active-segment start and last-pause timestamp all equal the maximum
migrated `endTs`. -/
theorem v4_migration_restore (store : Storage) (p : SnapshotV4) (segs : List SegV4)
    (k : Int) (h6 : store.stateV6 = none) (h5 : store.stateV5 = none)
    (h4 : store.stateV4 = some p) (hsegs : p.segments = some segs)
    (hk : store.reloadsLeft = some k) (hpos : 0 < k) :
    (restoreLoad store).1.laps = migrateV4 segs ∧
    (∀ seg ∈ segs, ∀ a b, seg.start = some a → seg.end_ = some b →
      migrateSegV4 seg = some
        { startTs := a, endTs := b, durationMs := max 0 (b - a),
          targetMinutes := seg.targetMinutes }) ∧
    (restoreLoad store).1.sessionStartTs = listMin ((migrateV4 segs).map Lap.startTs) ∧
    (restoreLoad store).1.lapAnchorTs = listMax ((migrateV4 segs).map Lap.endTs) ∧
    (restoreLoad store).1.activeStartTs = listMax ((migrateV4 segs).map Lap.endTs) ∧
    (restoreLoad store).1.lastPauseTs = listMax ((migrateV4 segs).map Lap.endTs) := by
  have hre : (restoreLoad store).1 =
      { applyV4 { initSt with reloadsLeft := k } p with reloadsLeft := max 0 (k - 1) } := by
    simp [restoreLoad, hk, h6, h5, h4, if_pos hpos]
  rw [hre]
  refine ⟨?_, ?_, ?_, ?_, ?_, ?_⟩
  · simp [applyV4, hsegs]
  · intro seg _ a b hsa hsb
    simp [migrateSegV4, hsa, hsb]
  · simp [applyV4, hsegs]
  · cases hm : migrateV4 segs with
    | nil => simp [applyV4, hsegs, hm, listMax, listMin, jsCoalesce]
    | cons l rest => simp [applyV4, hsegs, hm, listMax, listMin, jsCoalesce]
  · cases hm : migrateV4 segs with
    | nil => simp [applyV4, hsegs, hm, listMax, listMin, jsCoalesce]
    | cons l rest => simp [applyV4, hsegs, hm, listMax, listMin, jsCoalesce]
  · simp [applyV4, hsegs]

/-- Claim C8 witness: a v4 payload with one malformed and two well-formed
segments (one of them with `end < start`, floored to duration 0). -/
theorem v4_migration_restore_witness :
    (let segs : List SegV4 :=
      [⟨some 10, some 4, some 7⟩, ⟨none, some 5, none⟩, ⟨some 20, some 30, none⟩]
    let st0 : Storage := ⟨some 1, none, none, some ⟨some segs, none⟩⟩
    (restoreLoad st0).1.laps = migrateV4 segs ∧
      (restoreLoad st0).1.sessionStartTs = listMin ((migrateV4 segs).map Lap.startTs) ∧
      (restoreLoad st0).1.lapAnchorTs = listMax ((migrateV4 segs).map Lap.endTs)) := by
  exact ⟨(v4_migration_restore _ _ _ 1 rfl rfl rfl rfl rfl (by decide)).1,
    (v4_migration_restore _ _ _ 1 rfl rfl rfl rfl rfl (by decide)).2.2.1,
    (v4_migration_restore _ _ _ 1 rfl rfl rfl rfl rfl (by decide)).2.2.2.1⟩

/-- Claim C7 witness: concrete no-ops on the initial (idle) state and on a
running state. -/
theorem illegal_transitions_noop_witness :
    handleLap initSt 5 = initSt ∧ handlePause initSt 5 = initSt ∧
      handleStart (step initSt (Ev.start 0)) 5 = step initSt (Ev.start 0) ∧
      handleResetS (step initSt (Ev.start 0)) ⟨none, none, none, none⟩ =
        (step initSt (Ev.start 0), ⟨none, none, none, none⟩) :=
  ⟨(illegal_transitions_noop initSt ⟨none, none, none, none⟩ 5).1 rfl,
   (illegal_transitions_noop initSt ⟨none, none, none, none⟩ 5).2.2.1 rfl,
   (illegal_transitions_noop (step initSt (Ev.start 0)) ⟨none, none, none, none⟩ 5).2.2.2.1
     (by decide),
   (illegal_transitions_noop (step initSt (Ev.start 0)) ⟨none, none, none, none⟩ 5).2.2.2.2
     (by decide)⟩

/-! ### Bracket-freeness machinery for the export-text claim -/

theorem strData_append (a b : String) : (a ++ b).data = a.data ++ b.data := by
  cases a; cases b; rfl

theorem noBr_append (a b : String) : noBr (a ++ b) = (noBr a && noBr b) := by
  simp [noBr, strData_append, List.all_append]

theorem charOk_digitChar (m : Nat) (h : m < 10) :
    (!(Nat.digitChar m == '[') && !(Nat.digitChar m == ']')) = true := by
  interval_cases m <;> decide

theorem toDigitsCore_charOk (fuel n : Nat) (ds : List Char)
    (h : ds.all (fun c => !(c == '[') && !(c == ']')) = true) :
    (Nat.toDigitsCore 10 fuel n ds).all (fun c => !(c == '[') && !(c == ']')) = true := by
  induction fuel generalizing n ds with
  | zero => simpa [Nat.toDigitsCore] using h
  | succ fuel ih =>
    simp only [Nat.toDigitsCore]
    split
    · simp [List.all_cons, h, charOk_digitChar _ (Nat.mod_lt _ (by decide))]
    · exact ih _ _ (by simp [List.all_cons, h, charOk_digitChar _ (Nat.mod_lt _ (by decide))])

theorem natRepr_noBr (n : Nat) : noBr (Nat.repr n) = true :=
  toDigitsCore_charOk (n + 1) n [] rfl

theorem intRepr_noBr (i : Int) : noBr (Int.repr i) = true := by
  cases i with
  | ofNat m => exact natRepr_noBr m
  | negSucc m =>
    have hr : Int.repr (Int.negSucc m) = "-" ++ Nat.repr (m + 1) := rfl
    rw [hr, noBr_append, natRepr_noBr]
    decide

theorem toStringNat_noBr (n : Nat) : noBr (toString n) = true := natRepr_noBr n

theorem toStringInt_noBr (i : Int) : noBr (toString i) = true := intRepr_noBr i

theorem padStart2_noBr (s : String) (h : noBr s = true) : noBr (padStart2 s) = true := by
  unfold padStart2
  split
  · exact h
  · split
    · rw [noBr_append, h, (by decide : noBr "0" = true)]; rfl
    · decide

theorem fmtRange_noBr (ts : Int) : noBr (fmtRange ts) = true := by
  have h1 := padStart2_noBr _ (toStringInt_noBr (Int.emod (jsFloorDiv ts 3600000) 24))
  have h2 := padStart2_noBr _ (toStringInt_noBr (Int.emod (jsFloorDiv ts 60000) 60))
  unfold fmtRange
  rw [noBr_append, noBr_append, h1, h2]
  decide

theorem msToHMS_noBr_h (ms : Int) : noBr (msToHMS ms).1 = true :=
  padStart2_noBr _ (toStringInt_noBr _)

theorem msToHMS_noBr_m (ms : Int) : noBr (msToHMS ms).2.1 = true :=
  padStart2_noBr _ (toStringInt_noBr _)

theorem msToHMS_noBr_s (ms : Int) : noBr (msToHMS ms).2.2.1 = true :=
  padStart2_noBr _ (toStringInt_noBr _)

theorem fmtHMS_noBr (ms : Int) : noBr (fmtHMS ms) = true := by
  have hc : noBr ":" = true := by decide
  simp [fmtHMS, noBr_append, msToHMS_noBr_h, msToHMS_noBr_m, msToHMS_noBr_s, hc]

theorem specLapLine_noBr (n : Nat) (lap : Lap) : noBr (specLapLine n lap) = true := by
  have ha := toStringNat_noBr n
  have hb := fmtRange_noBr lap.startTs
  have hc := fmtRange_noBr lap.endTs
  have hd := toStringInt_noBr (jsRoundDiv lap.durationMs 60000)
  have he : noBr ". " = true := by decide
  have hf : noBr "~" = true := by decide
  have hg : noBr "，共 " = true := by decide
  have hh : noBr " 分鐘" = true := by decide
  simp [specLapLine, noBr_append, ha, hb, hc, hd, he, hf, hg, hh]

theorem specTotalLine_noBr (rs re rd : Int) : noBr (specTotalLine rs re rd) = true := by
  have ha : noBr "總時長：" = true := by decide
  have hb := fmtRange_noBr rs
  have hc := fmtRange_noBr re
  have hd : noBr "（共 " = true := by decide
  have he := fmtHMS_noBr rd
  have hf : noBr "）" = true := by decide
  have hg : noBr "~" = true := by decide
  simp [specTotalLine, noBr_append, ha, hb, hc, hd, he, hf, hg]

theorem joinLines_noBr : ∀ ls : List String, (∀ l ∈ ls, noBr l = true) →
    noBr (joinLines ls) = true
  | [], _ => by decide
  | [x], h => by simpa [joinLines] using h x (by simp)
  | x :: y :: rest, h => by
    rw [joinLines, noBr_append, noBr_append, h x (by simp),
      joinLines_noBr (y :: rest) (fun l hl => h l (by simp [hl]))]
    decide

theorem buildTextSummary_noBr (laps : List Lap) (rs re rd : Option Int) :
    noBr (buildTextSummary laps rs re rd) = true := by
  unfold buildTextSummary
  split
  · decide
  · apply joinLines_noBr
    intro l hl
    split at hl
    · rcases List.mem_append.mp hl with hmem | htail
      · rcases List.mem_map.mp hmem with ⟨p, _, hp⟩
        rw [← hp]
        exact specLapLine_noBr (p.1 + 1) p.2
      · simp only [List.mem_cons, List.not_mem_nil, or_false] at htail
        rcases htail with h1 | h2
        · rw [h1]; decide
        · rw [h2]
          exact specTotalLine_noBr (rs.getD 0) (re.getD 0) (rd.getD 0)
    · rcases List.mem_map.mp hl with ⟨p, _, hp⟩
      rw [← hp]
      exact specLapLine_noBr (p.1 + 1) p.2

/-- Claim C9 counterexample: with one completed lap and BOTH range
endpoints present (a range exists: `rangeStart = some 0`,
`rangeEnd = some 60000`), the export is the single lap line — no blank
line and no total-range line — because the source tests JS truthiness
(`rangeStart && rangeEnd`) and the timestamp `0` is falsy. -/
theorem export_text_contract_cex :
    buildTextSummary [⟨0, 60000, 60000, none⟩] (some 0) (some 60000) (some 60000) =
      "1. 00:00~00:01，共 1 分鐘" ∧
    ((buildTextSummary [⟨0, 60000, 60000, none⟩] (some 0) (some 60000)
        (some 60000)).data.contains '總') = false ∧
    (some (0 : Int)).isSome = true ∧ (some (60000 : Int)).isSome = true := by
  decide

/-- Claim C9 (amended): the empty ledger exports the fixed placeholder;
a non-empty ledger exports one spec-format line per completed lap in
chronological order, followed — when both range endpoints are truthy
(present and non-zero) — by a blank line and the spec-format total line;
the in-progress segment is never consulted; and the export never contains
a literal bracket character. -/
theorem export_text_contract (laps : List Lap) (rs re rd : Option Int) :
    (laps = [] → buildTextSummary laps rs re rd = "尚無區段紀錄") ∧
    (laps ≠ [] → buildTextSummary laps rs re rd =
      joinLines (specLapLines laps ++
        (if jsTruthy rs && jsTruthy re then
          ["", specTotalLine (rs.getD 0) (re.getD 0) (rd.getD 0)]
        else []))) ∧
    noBr (buildTextSummary laps rs re rd) = true := by
  refine ⟨?_, ?_, buildTextSummary_noBr laps rs re rd⟩
  · intro h
    simp [buildTextSummary, h]
  · intro h
    have hne : ¬(laps.isEmpty = true) := by simpa [List.isEmpty_iff] using h
    by_cases hc : (jsTruthy rs && jsTruthy re) = true
    · simp only [buildTextSummary, if_neg hne, if_pos hc]
      rfl
    · simp only [buildTextSummary, if_neg hne, if_neg hc, List.append_nil]
      rfl

/-- Claim C9 witness: a one-lap ledger with truthy range endpoints
exports the lap line, a blank line and the total line. -/
theorem export_text_contract_witness :
    buildTextSummary [⟨3600000, 7200000, 3600000, none⟩] (some 3600000) (some 7200000)
        (some 3600000) =
      joinLines (specLapLines [⟨3600000, 7200000, 3600000, none⟩] ++
        (if jsTruthy (some 3600000) && jsTruthy (some 7200000) then
          ["", specTotalLine ((some (3600000 : Int)).getD 0) ((some (7200000 : Int)).getD 0)
            ((some (3600000 : Int)).getD 0)]
        else [])) :=
  (export_text_contract [⟨3600000, 7200000, 3600000, none⟩] (some 3600000) (some 7200000)
    (some 3600000)).2.1 (by decide)

/-- Claim C10: when the trimmed raw input is non-empty and the parsed
numeric value is defined (not `NaN`), the pending target is
`max 0 ⌊n⌋` — fractional values floored, negatives clamped to zero — so a
set pending target is always a non-negative integer; whitespace-only raw
input parses to the unset value. -/
theorem target_input_normalization (raw : String) (n : Option ℚ) :
    (jsTrim raw = "" → computePresetFromInput raw n = none) ∧
    (jsTrim raw ≠ "" → ∀ q : ℚ, n = some q →
      computePresetFromInput raw n = some (max 0 ⌊q⌋)) ∧
    (∀ v : Int, computePresetFromInput raw n = some v → 0 ≤ v) := by
  refine ⟨?_, ?_, ?_⟩
  · intro h
    simp [computePresetFromInput, h]
  · intro h q hq
    subst hq
    simp [computePresetFromInput, h, ratFloor_eq_floor]
  · intro v hv
    unfold computePresetFromInput at hv
    split at hv
    · exact absurd hv (by simp)
    · cases n with
      | none => exact absurd hv (by simp)
      | some q =>
        have h2 : max 0 (Rat.floor q) = v := by simpa using hv
        rw [← h2]
        exact le_max_left _ _

/-- Claim C10 witness: `"5.9"` with numeric value 59/10 is floored to 5;
whitespace-only input is unset even with a numeric value supplied. -/
theorem target_input_normalization_witness :
    computePresetFromInput "5.9" (some (mkRat 59 10)) = some (max 0 ⌊(mkRat 59 10 : ℚ)⌋) ∧
    computePresetFromInput " " (some (mkRat 59 10)) = none ∧
    computePresetFromInput "5.9" (some (mkRat 59 10)) = some 5 := by
  have h1 := (target_input_normalization "5.9" (some (mkRat 59 10))).2.1 (by decide)
    (mkRat 59 10) rfl
  refine ⟨h1, (target_input_normalization " " (some (mkRat 59 10))).1 (by decide), ?_⟩
  rw [h1, ← ratFloor_eq_floor]
  decide
